import Mathlib

/-!
Verification of the layer compositing and spatial transform engine of the
hyperedit repository, embedded from
`src/src/react-app/components/VideoPreview.tsx`.

Numbers are modelled as rationals, optional record fields as `Option`,
JavaScript truthiness of an optional number explicitly (`undefined` and `0`
are falsy).  `String.prototype.localeCompare` is modelled as lexicographic
code-point comparison, the ECMA-262 fallback behaviour (strings compared as
code-unit sequences); on the ASCII track identifiers the editor uses
("V1", "V2", ...) this coincides with locale-insensitive ordinal order.
`Array.prototype.sort` is stable (ES2019), so it is modelled by a stable
sort (`List.insertionSort`); for a consistent comparator the stable sorted
result is unique, hence this is the observable behaviour of the source.
-/

namespace HyperEdit

/-- The media kind of a layer: `type: 'video' | 'image' | 'audio'`
(VideoPreview.tsx line 19). -/
inductive MediaType
  | video
  | image
  | audio
deriving DecidableEq

/-- `ClipTransform` (VideoPreview.tsx lines 4-14): every field optional. -/
structure ClipTransform where
  x : Option ℚ := none
  y : Option ℚ := none
  scale : Option ℚ := none
  rotation : Option ℚ := none
  opacity : Option ℚ := none
  cropTop : Option ℚ := none
  cropBottom : Option ℚ := none
  cropLeft : Option ℚ := none
  cropRight : Option ℚ := none
deriving DecidableEq

/-- `ClipLayer` (VideoPreview.tsx lines 16-23). -/
structure ClipLayer where
  id : String
  url : String
  type : MediaType
  trackId : String
  clipTime : ℚ
  transform : Option ClipTransform := none
deriving DecidableEq

/-- JavaScript truthiness of an optional number: `undefined` and `0` are
falsy, every other value truthy. -/
def truthy : Option ℚ → Bool
  | none => false
  | some q => decide (q ≠ 0)

/-- JavaScript `v || 0` on an optional number: the value when truthy,
otherwise `0` (a falsy `0` also yields `0`, so this is `getD 0`). -/
def jsOrZero (v : Option ℚ) : ℚ :=
  if truthy v then v.getD 0 else 0

/-- JavaScript truthiness of an optional string: `null`/`undefined` and
the empty string are falsy, every other string truthy. -/
def truthyStr : Option String → Bool
  | none => false
  | some s => decide (s ≠ "")

/-- One entry of the CSS transform list built by `getTransformStyles`
(the strings pushed into `transforms`, lines 42-57). -/
inductive TransformOp
  | translate (x y : ℚ)
  | scale (s : ℚ)
  | rotate (deg : ℚ)
deriving DecidableEq

/-- The values of `clip-path: inset(top% right% bottom% left%)`
(VideoPreview.tsx line 71). -/
structure CropInset where
  top : ℚ
  right : ℚ
  bottom : ℚ
  left : ℚ
deriving DecidableEq

/-- The `React.CSSProperties` value produced by `getTransformStyles`:
`transform` is `none` when the transform list is empty (line 68),
`clipPath` is `none` when no crop field is set (lines 70-72), `cursor` is
`none` unless dragging (line 73). -/
structure Styles where
  zIndex : ℤ
  transform : Option (List TransformOp)
  opacity : ℚ
  clipPath : Option CropInset
  cursor : Option String
deriving DecidableEq

/-- `getTransformStyles` (VideoPreview.tsx lines 39-75), the transform
resolver: builds the CSS style record from an optional `ClipTransform`,
a z-index and the dragging flag, mirroring the source statement by
statement. -/
def getTransformStyles (transform : Option ClipTransform) (zIndex : ℤ)
    (isDragging : Bool) : Styles :=
  let t := transform.getD {}
  let transforms : List TransformOp := []
  let transforms := if truthy t.x || truthy t.y then
    transforms ++ [TransformOp.translate (jsOrZero t.x) (jsOrZero t.y)]
    else transforms
  let transforms := if truthy t.scale = true ∧ t.scale ≠ some 1 then
    transforms ++ [TransformOp.scale (jsOrZero t.scale)] else transforms
  let transforms := if truthy t.rotation then
    transforms ++ [TransformOp.rotate (jsOrZero t.rotation)] else transforms
  let cropTop := jsOrZero t.cropTop
  let cropBottom := jsOrZero t.cropBottom
  let cropLeft := jsOrZero t.cropLeft
  let cropRight := jsOrZero t.cropRight
  let hasClip := cropTop ≠ 0 ∨ cropBottom ≠ 0 ∨ cropLeft ≠ 0 ∨ cropRight ≠ 0
  { zIndex := zIndex
    transform := if transforms.isEmpty then none else some transforms
    opacity := t.opacity.getD 1
    clipPath := if hasClip then
      some { top := cropTop, right := cropRight, bottom := cropBottom,
             left := cropLeft } else none
    cursor := if isDragging then some "grabbing" else none }

/-- The transform list of a style record (`transform` joined string read
back as a list; the empty list when `transform` is unset). -/
def transformList (s : Styles) : List TransformOp :=
  s.transform.getD []

/-- Lexicographic code-point comparison of character lists: the model of
the ECMA-262 fallback for `localeCompare` (strings as code-unit
sequences). -/
def lexLt : List Char → List Char → Bool
  | _, [] => false
  | [], _ :: _ => true
  | a :: as, b :: bs =>
    if a < b then true
    else if b < a then false
    else lexLt as bs

/-- `a.localeCompare(b) <= 0` under the code-unit model: `a` sorts no
later than `b`. -/
def strLe (a b : String) : Bool :=
  !(lexLt b.data a.data)

/-- The comparator of `sortedLayers` (VideoPreview.tsx line 94), as a
relation: `(a, b) => a.trackId.localeCompare(b.trackId)` keeps `a` before
`b` exactly when the comparator is `<= 0`. -/
def trackR (a b : ClipLayer) : Prop :=
  strLe a.trackId b.trackId = true

instance : DecidableRel trackR :=
  fun _ _ => instDecidableEqBool _ _

/-- `sortedLayers` (VideoPreview.tsx lines 93-96):
`[...layers].sort((a, b) => a.trackId.localeCompare(b.trackId))`.
`Array.prototype.sort` is stable, modelled by the stable
`List.insertionSort`. -/
def sortedLayers (layers : List ClipLayer) : List ClipLayer :=
  List.insertionSort trackR layers

/-- The base-layer predicate `l.trackId === 'V1' && l.type === 'video'`
(VideoPreview.tsx lines 90 and 203). -/
def isBaseVideo (l : ClipLayer) : Bool :=
  l.trackId == "V1" && l.type == MediaType.video

/-- `baseVideoLayer` (VideoPreview.tsx line 90):
`layers.find(l => l.trackId === 'V1' && l.type === 'video')`. -/
def baseVideoLayer (layers : List ClipLayer) : Option ClipLayer :=
  layers.find? isBaseVideo

/-- The `muted` attribute of a rendered video element:
`muted={!isBaseVideo}` (VideoPreview.tsx line 222). -/
def mutedAttr (l : ClipLayer) : Bool :=
  !(isBaseVideo l)

/-- The video elements produced by the render loop (VideoPreview.tsx
lines 202-226): the video layers in sorted order, each paired with its
`muted` attribute. -/
def renderedVideos (layers : List ClipLayer) : List (ClipLayer × Bool) :=
  (sortedLayers layers).filterMap fun l =>
    if l.type = MediaType.video then some (l, mutedAttr l) else none

/-- The seek-reconciliation effect (VideoPreview.tsx lines 106-115): given
whether the video element handle exists, the base layer, the `isPlaying`
intent and the element's live `currentTime`, it returns the position write
imposed on the element, if any (`some target` models
`video.currentTime = target`). -/
def seekEffect (videoPresent : Bool) (base : Option ClipLayer)
    (isPlaying : Bool) (currentTime : ℚ) : Option ℚ :=
  match videoPresent, base with
  | false, _ => none
  | true, none => none
  | true, some b =>
    if isPlaying then none
    else if |currentTime - b.clipTime| > 1 / 10 then some b.clipTime
    else none

/-- The `dragStart` state value (VideoPreview.tsx line 87):
`{ x, y, layerX, layerY }`, the pointer client coordinates and the
layer's transform position at gesture start. -/
structure DragStart where
  x : ℚ
  y : ℚ
  layerX : ℚ
  layerY : ℚ
deriving DecidableEq

/-- The drag controller's state: `draggingLayer` and `dragStart`
(VideoPreview.tsx lines 86-87). -/
structure DragState where
  draggingLayer : Option String
  dragStart : Option DragStart
deriving DecidableEq

/-- The initial drag state: both state values `null`. -/
def initialDragState : DragState :=
  { draggingLayer := none, dragStart := none }

/-- A request emitted to the external state owner: `onLayerSelect(id)` or
`onLayerMove(id, x, y)`. -/
inductive Request
  | select (layerId : String)
  | move (layerId : String) (x y : ℚ)
deriving DecidableEq

/-- A pointer event delivered to the drag controller: a mouse-down on a
layer (with its button and client coordinates), a global mouse-move, or a
global mouse-up. -/
inductive PointerEvent
  | down (button : ℕ) (clientX clientY : ℚ) (layer : ClipLayer)
  | move (clientX clientY : ℚ)
  | up
deriving DecidableEq

/-- Whether a pointer event is a mouse-down. -/
def isDown : PointerEvent → Bool
  | PointerEvent.down _ _ _ _ => true
  | _ => false

/-- `handleLayerMouseDown` (VideoPreview.tsx lines 137-155): ignores
base-track (V1) layers and non-primary buttons; otherwise records the drag
session (`draggingLayer`, `dragStart` with the layer origin defaulting to
0 via `layer.transform?.x || 0`) and emits `onLayerSelect(layer.id)`. -/
def handleLayerMouseDown (button : ℕ) (clientX clientY : ℚ)
    (layer : ClipLayer) (s : DragState) : DragState × List Request :=
  if layer.trackId == "V1" then (s, [])
  else if button ≠ 0 then (s, [])
  else
    ({ draggingLayer := some layer.id
       dragStart := some
         { x := clientX, y := clientY
           layerX := jsOrZero (layer.transform.bind ClipTransform.x)
           layerY := jsOrZero (layer.transform.bind ClipTransform.y) } },
     [Request.select layer.id])

/-- `handleMouseMove` (VideoPreview.tsx lines 161-169): with an active
session, emits `onLayerMove(draggingLayer, layerX + deltaX, layerY +
deltaY)` for the current pointer position. -/
def handleMouseMove (clientX clientY : ℚ) (s : DragState) : List Request :=
  match s.draggingLayer, s.dragStart with
  | some layerId, some ds =>
    [Request.move layerId (ds.layerX + (clientX - ds.x))
      (ds.layerY + (clientY - ds.y))]
  | _, _ => []

/-- Whether the global mouse-move/mouse-up listeners are registered: the
effect (VideoPreview.tsx lines 158-183) returns early at line 159
(`if (!draggingLayer || !dragStart) return`) unless both `draggingLayer`
and `dragStart` are truthy.  `draggingLayer` is a string, so a session on
a layer whose id is the empty string is falsy and registers no listeners;
`dragStart` is an object, truthy whenever present. -/
def listenersActive (s : DragState) : Bool :=
  truthyStr s.draggingLayer && s.dragStart.isSome

/-- `handleMouseUp` (VideoPreview.tsx lines 171-174): when registered
(session active), clears both state values. -/
def handleMouseUp (s : DragState) : DragState :=
  if listenersActive s then initialDragState else s

/-- One step of the drag interaction controller: dispatch a pointer event
against the current state, returning the next state and the emitted
requests.  Move/up handlers only run while the global listeners are
registered. -/
def step (s : DragState) : PointerEvent → DragState × List Request
  | PointerEvent.down button cx cy layer =>
    handleLayerMouseDown button cx cy layer s
  | PointerEvent.move cx cy =>
    (s, if listenersActive s then handleMouseMove cx cy s else [])
  | PointerEvent.up => (handleMouseUp s, [])

/-- The drag state reached from `s` after a list of pointer events. -/
def runState (s : DragState) : List PointerEvent → DragState
  | [] => s
  | e :: es => runState (step s e).1 es

/-- The requests emitted from state `s` over a list of pointer events, in
arrival order. -/
def runRequests (s : DragState) : List PointerEvent → List Request
  | [] => []
  | e :: es => (step s e).2 ++ runRequests (step s e).1 es

/-- A concrete base layer: a video clip on the primary track V1. -/
def layerA : ClipLayer :=
  { id := "A", url := "a.mp4", type := MediaType.video, trackId := "V1",
    clipTime := 5 }

/-- A second video clip on the primary track V1, distinct from `layerA`. -/
def layerA2 : ClipLayer :=
  { id := "A2", url := "a2.mp4", type := MediaType.video, trackId := "V1",
    clipTime := 7 }

/-- A concrete overlay layer: an image on track V2 with a zero transform. -/
def layerB : ClipLayer :=
  { id := "B", url := "b.png", type := MediaType.image, trackId := "V2",
    clipTime := 0,
    transform := some { x := some 0, y := some 0 } }

/-- A second overlay layer on track V2, distinct from `layerB`. -/
def layerB2 : ClipLayer :=
  { id := "B2", url := "b2.png", type := MediaType.image, trackId := "V2",
    clipTime := 0 }

/-- An overlay layer whose id is the empty string: its id is falsy in
JavaScript, so a drag session started on it never registers the global
listeners. -/
def layerE : ClipLayer :=
  { id := "", url := "e.png", type := MediaType.image, trackId := "V2",
    clipTime := 0 }

theorem lexLt_irrefl : ∀ l : List Char, lexLt l l = false := by
  intro l
  induction l with
  | nil => rfl
  | cons a as ih => simp [lexLt, ih]

theorem lexLt_asymm : ∀ a b : List Char, lexLt a b = true → lexLt b a = false := by
  intro a
  induction a with
  | nil =>
    intro b h
    cases b with
    | nil => simp [lexLt] at h
    | cons c cs => simp [lexLt]
  | cons x xs ih =>
    intro b h
    cases b with
    | nil => simp [lexLt] at h
    | cons y ys =>
      by_cases hxy : x < y
      · have hyx : ¬ y < x := lt_asymm hxy
        simp [lexLt, hxy, hyx]
      · by_cases hyx : y < x
        · simp [lexLt, hxy, hyx] at h
        · have hxy2 : lexLt xs ys = true := by simpa [lexLt, hxy, hyx] using h
          simp [lexLt, hxy, hyx, ih ys hxy2]

theorem lexLt_trans :
    ∀ a b c : List Char, lexLt a b = true → lexLt b c = true → lexLt a c = true := by
  intro a
  induction a with
  | nil =>
    intro b c hab hbc
    cases b with
    | nil => simp [lexLt] at hab
    | cons y ys =>
      cases c with
      | nil => simp [lexLt] at hbc
      | cons z zs => simp [lexLt]
  | cons x xs ih =>
    intro b c hab hbc
    cases b with
    | nil => simp [lexLt] at hab
    | cons y ys =>
      cases c with
      | nil => simp [lexLt] at hbc
      | cons z zs =>
        by_cases hyz : y < z
        · by_cases hxy : x < y
          · have hxz : x < z := lt_trans hxy hyz
            simp [lexLt, hxz]
          · by_cases hyx : y < x
            · simp [lexLt, hxy, hyx] at hab
            · have hxyeq : x = y := le_antisymm (not_lt.mp hyx) (not_lt.mp hxy)
              subst hxyeq
              simp [lexLt, hyz]
        · by_cases hzy : z < y
          · simp [lexLt, hyz, hzy] at hbc
          · have hyzeq : y = z := le_antisymm (not_lt.mp hzy) (not_lt.mp hyz)
            subst hyzeq
            have hyszs : lexLt ys zs = true := by simpa [lexLt, hyz, hzy] using hbc
            by_cases hxy : x < y
            · simp [lexLt, hxy]
            · by_cases hyx : y < x
              · simp [lexLt, hxy, hyx] at hab
              · have hxsys : lexLt xs ys = true := by simpa [lexLt, hxy, hyx] using hab
                simp [lexLt, hxy, hyx, ih ys zs hxsys hyszs]

theorem lexLt_eq_of_not :
    ∀ a b : List Char, lexLt a b = false → lexLt b a = false → a = b := by
  intro a
  induction a with
  | nil =>
    intro b hab _
    cases b with
    | nil => rfl
    | cons c cs => simp [lexLt] at hab
  | cons x xs ih =>
    intro b hab hba
    cases b with
    | nil => simp [lexLt] at hba
    | cons y ys =>
      by_cases hxy : x < y
      · simp [lexLt, hxy] at hab
      · by_cases hyx : y < x
        · simp [lexLt, hyx] at hba
        · have hxyeq : x = y := le_antisymm (not_lt.mp hyx) (not_lt.mp hxy)
          subst hxyeq
          have h1 : lexLt xs ys = false := by simpa [lexLt, hxy] using hab
          have h2 : lexLt ys xs = false := by simpa [lexLt, hxy] using hba
          rw [ih ys h1 h2]

theorem strLe_refl (a : String) : strLe a a = true := by
  simp [strLe, lexLt_irrefl]

theorem strLe_total (a b : String) : strLe a b = true ∨ strLe b a = true := by
  by_cases h : lexLt b.data a.data = true
  · right
    simp [strLe, lexLt_asymm _ _ h]
  · left
    have h' : lexLt b.data a.data = false := by
      revert h
      cases lexLt b.data a.data <;> simp
    simp [strLe, h']

theorem strLe_trans (a b c : String) :
    strLe a b = true → strLe b c = true → strLe a c = true := by
  intro hab hbc
  have h1 : lexLt b.data a.data = false := by simpa [strLe] using hab
  have h2 : lexLt c.data b.data = false := by simpa [strLe] using hbc
  simp only [strLe, Bool.not_eq_true']
  by_contra hca
  have hca : lexLt c.data a.data = true := by
    revert hca
    cases lexLt c.data a.data <;> simp
  by_cases hablt : lexLt a.data b.data = true
  · have := lexLt_trans _ _ _ hca hablt
    rw [this] at h2
    cases h2
  · have hde : a.data = b.data :=
      lexLt_eq_of_not _ _ (by revert hablt; cases lexLt a.data b.data <;> simp) h1
    rw [hde] at hca
    rw [hca] at h2
    cases h2

/-- C1: for every input sequence of `ClipLayer`, the layer ordering
resolver returns a permutation of the input sorted by ascending `trackId`
under the lexicographic ordinal comparison, preserves the relative input
order of layers with equal `trackId` (stability), and is deterministic:
run twice on the same input it yields the identical output order. -/
theorem C1_layer_ordering (layers : List ClipLayer) :
    (sortedLayers layers).Perm layers ∧
    (sortedLayers layers).Sorted trackR ∧
    (∀ a b : ClipLayer, a.trackId = b.trackId →
      List.Sublist [a, b] layers → List.Sublist [a, b] (sortedLayers layers)) ∧
    sortedLayers layers = sortedLayers layers := by
  haveI : IsTotal ClipLayer trackR :=
    ⟨fun a b => strLe_total a.trackId b.trackId⟩
  haveI : IsTrans ClipLayer trackR :=
    ⟨fun a b c hab hbc => strLe_trans a.trackId b.trackId c.trackId hab hbc⟩
  refine ⟨List.perm_insertionSort trackR layers,
    List.sorted_insertionSort trackR layers, ?_, rfl⟩
  intro a b hkey hsub
  have hr : trackR a b := by
    show strLe a.trackId b.trackId = true
    rw [hkey]
    exact strLe_refl b.trackId
  exact List.pair_sublist_insertionSort hr hsub

/-- Witness for C1 at a concrete input: two equal-key V2 layers keep their
relative order in the sorted output of a three-layer set. -/
theorem C1_layer_ordering_witness :
    List.Sublist [layerB, layerB2] (sortedLayers [layerB, layerB2, layerA]) :=
  (C1_layer_ordering [layerB, layerB2, layerA]).2.2.1 layerB layerB2 rfl
    (by decide)

theorem find?_first {α : Type} (p : α → Bool) :
    ∀ (l : List α) (b : α), l.find? p = some b →
      p b = true ∧ ∃ pre post, l = pre ++ b :: post ∧ ∀ x ∈ pre, p x = false := by
  intro l
  induction l with
  | nil => intro b h; simp [List.find?] at h
  | cons a l ih =>
    intro b h
    by_cases hpa : p a = true
    · rw [List.find?_cons_of_pos _ hpa] at h
      obtain rfl : a = b := by simpa using h
      exact ⟨hpa, [], l, rfl, by simp⟩
    · have hpa' : p a = false := by revert hpa; cases p a <;> simp
      rw [List.find?_cons_of_neg _ (by simp [hpa'])] at h
      obtain ⟨hb, pre, post, rfl, hpre⟩ := ih b h
      refine ⟨hb, a :: pre, post, rfl, ?_⟩
      intro x hx
      rcases List.mem_cons.mp hx with rfl | hx
      · exact hpa'
      · exact hpre x hx

/-- C4: the base layer is the first layer in input order whose `trackId`
is the primary video track V1 and whose kind is video; with no qualifying
layer the result is `none` (unbound), and with several candidates exactly
the first encountered is selected. -/
theorem C4_base_layer_selection (layers : List ClipLayer) :
    (baseVideoLayer layers = none ↔ ∀ l ∈ layers, isBaseVideo l = false) ∧
    (∀ b, baseVideoLayer layers = some b →
      isBaseVideo b = true ∧
      ∃ pre post, layers = pre ++ b :: post ∧ ∀ l ∈ pre, isBaseVideo l = false) := by
  constructor
  · rw [show baseVideoLayer layers = layers.find? isBaseVideo from rfl,
      List.find?_eq_none]
    constructor
    · intro h l hl
      have := h l hl
      revert this
      cases isBaseVideo l <;> simp
    · intro h l hl
      rw [h l hl]
      simp
  · intro b hb
    exact find?_first isBaseVideo layers b hb

/-- Witness for C4 at a concrete input with two qualifying candidates:
the first encountered (`layerA`) is selected, and the decomposition puts
no qualifying layer before it. -/
theorem C4_base_layer_selection_witness :
    isBaseVideo layerA = true ∧
    ∃ pre post, [layerB, layerA, layerA2] = pre ++ layerA :: post ∧
      ∀ l ∈ pre, isBaseVideo l = false :=
  (C4_base_layer_selection [layerB, layerA, layerA2]).2 layerA (by decide)

/-- C3: bound to a base layer with `isPlaying = false`, the clock
synchronizer forces the element position to `clipTime` exactly when the
live position differs from it by more than 0.1 seconds (a 0.05 s
difference triggers no seek, a 0.2 s difference triggers one); while
`isPlaying = true` it never imposes a position. -/
theorem C3_seek_reconciliation (b : ClipLayer) (cur : ℚ) :
    seekEffect true (some b) true cur = none ∧
    (seekEffect true (some b) false cur = some b.clipTime ↔
      |cur - b.clipTime| > 1 / 10) ∧
    (seekEffect true (some b) false cur = none ↔ |cur - b.clipTime| ≤ 1 / 10) ∧
    (|cur - b.clipTime| = 1 / 20 → seekEffect true (some b) false cur = none) ∧
    (|cur - b.clipTime| = 1 / 5 → seekEffect true (some b) false cur = some b.clipTime) := by
  have heq : seekEffect true (some b) false cur =
      if |cur - b.clipTime| > 1 / 10 then some b.clipTime else none := rfl
  refine ⟨rfl, ?_, ?_, ?_, ?_⟩
  · by_cases h : |cur - b.clipTime| > 1 / 10
    · rw [heq, if_pos h]
      exact iff_of_true rfl h
    · rw [heq, if_neg h]
      exact iff_of_false (by simp) h
  · by_cases h : |cur - b.clipTime| > 1 / 10
    · rw [heq, if_pos h]
      exact iff_of_false (by simp) (not_le.mpr h)
    · rw [heq, if_neg h]
      exact iff_of_true rfl (not_lt.mp h)
  · intro h
    rw [heq, if_neg]
    rw [h]
    norm_num
  · intro h
    rw [heq, if_pos]
    rw [h]
    norm_num

/-- Witness for C3 at concrete inputs: with the base clip at 5 s, a live
position of 5.05 s triggers no seek and a live position of 5.2 s forces
the position to 5 s. -/
theorem C3_seek_reconciliation_witness :
    seekEffect true (some layerA) false (101 / 20) = none ∧
    seekEffect true (some layerA) false (26 / 5) = some 5 :=
  ⟨(C3_seek_reconciliation layerA (101 / 20)).2.2.2.1 (by
      show |101 / 20 - layerA.clipTime| = 1 / 20
      norm_num [layerA]),
   (C3_seek_reconciliation layerA (26 / 5)).2.2.2.2 (by
      show |26 / 5 - layerA.clipTime| = 1 / 5
      norm_num [layerA])⟩

theorem transformList_eq (t : ClipTransform) (z : ℤ) (d : Bool) :
    transformList (getTransformStyles (some t) z d) =
      (if truthy t.x || truthy t.y then
        [TransformOp.translate (jsOrZero t.x) (jsOrZero t.y)] else []) ++
      (if truthy t.scale = true ∧ t.scale ≠ some 1 then
        [TransformOp.scale (jsOrZero t.scale)] else []) ++
      (if truthy t.rotation then
        [TransformOp.rotate (jsOrZero t.rotation)] else []) := by
  by_cases h1 : (truthy t.x || truthy t.y) = true <;>
    by_cases h2 : truthy t.scale = true ∧ t.scale ≠ some 1 <;>
    by_cases h3 : truthy t.rotation = true <;>
    simp [transformList, getTransformStyles, h1, h2, h3]

/-- C2: the transform resolver builds the spatial transform list by
appending in the fixed order translate, scale, rotate, each part included
only under its gate (translate only when `x` or `y` is truthy, scale only
when present and not 1, rotate only when present and non-zero); on
`{x:10, y:0, scale:2, rotation:90}` it produces translate, then scale,
then rotate. -/
theorem C2_transform_order :
    (∀ (t : ClipTransform) (z : ℤ) (d : Bool),
      ∃ tr sc ro,
        transformList (getTransformStyles (some t) z d) = tr ++ sc ++ ro ∧
        (tr = [] ∨ ((truthy t.x || truthy t.y) = true ∧
          tr = [TransformOp.translate (jsOrZero t.x) (jsOrZero t.y)])) ∧
        (sc = [] ∨ (∃ s, t.scale = some s ∧ s ≠ 1 ∧
          sc = [TransformOp.scale s])) ∧
        (ro = [] ∨ (∃ r, t.rotation = some r ∧ r ≠ 0 ∧
          ro = [TransformOp.rotate r]))) ∧
    transformList (getTransformStyles
        (some { x := some 10, y := some 0, scale := some 2,
                rotation := some 90 }) 1 false) =
      [TransformOp.translate 10 0, TransformOp.scale 2,
       TransformOp.rotate 90] := by
  constructor
  · intro t z d
    refine ⟨_, _, _, transformList_eq t z d, ?_, ?_, ?_⟩
    · by_cases h1 : (truthy t.x || truthy t.y) = true
      · exact Or.inr ⟨h1, if_pos h1⟩
      · exact Or.inl (if_neg h1)
    · by_cases h2 : truthy t.scale = true ∧ t.scale ≠ some 1
      · obtain ⟨h2a, h2b⟩ := h2
        right
        cases hs : t.scale with
        | none => rw [hs] at h2a; simp [truthy] at h2a
        | some s =>
          rw [hs] at h2a h2b
          have hs0 : s ≠ 0 := by simpa [truthy] using h2a
          have hs1 : s ≠ 1 := by simpa using h2b
          refine ⟨s, rfl, hs1, ?_⟩
          rw [if_pos ⟨h2a, h2b⟩]
          simp [jsOrZero, truthy, hs0]
      · exact Or.inl (if_neg h2)
    · by_cases h3 : truthy t.rotation = true
      · right
        cases hr : t.rotation with
        | none => rw [hr] at h3; simp [truthy] at h3
        | some r =>
          rw [hr] at h3
          have hr0 : r ≠ 0 := by simpa [truthy] using h3
          refine ⟨r, rfl, hr0, ?_⟩
          rw [if_pos h3]
          simp [jsOrZero, truthy, hr0]
      · exact Or.inl (if_neg h3)
  · decide

/-- Witness for C2 at the concrete input of the claim: on
`{x:10, y:0, scale:2, rotation:90}` the resolver produces translate, then
scale, then rotate. -/
theorem C2_transform_order_witness :
    transformList (getTransformStyles
        (some { x := some 10, y := some 0, scale := some 2,
                rotation := some 90 }) 1 false) =
      [TransformOp.translate 10 0, TransformOp.scale 2,
       TransformOp.rotate 90] :=
  C2_transform_order.2

theorem clipPath_eq (t : ClipTransform) (z : ℤ) (d : Bool) :
    (getTransformStyles (some t) z d).clipPath =
      if jsOrZero t.cropTop ≠ 0 ∨ jsOrZero t.cropBottom ≠ 0 ∨
         jsOrZero t.cropLeft ≠ 0 ∨ jsOrZero t.cropRight ≠ 0 then
        some { top := jsOrZero t.cropTop, right := jsOrZero t.cropRight,
               bottom := jsOrZero t.cropBottom, left := jsOrZero t.cropLeft }
      else none := rfl

/-- C7: the transform resolver's crop description is an inward inset per
edge taken from the crop fields alone — unchanged when the spatial fields
(`x`, `y`, `scale`, `rotation`) are erased, so it never incorporates scale
or rotation — and it is present if and only if at least one crop field is
non-zero; with `scale:2, cropLeft:50` the inset is exactly 50% from the
left. -/
theorem C7_crop_independence :
    (∀ (t : ClipTransform) (z z' : ℤ) (d d' : Bool),
      ((getTransformStyles (some t) z d).clipPath ≠ none ↔
        (jsOrZero t.cropTop ≠ 0 ∨ jsOrZero t.cropBottom ≠ 0 ∨
         jsOrZero t.cropLeft ≠ 0 ∨ jsOrZero t.cropRight ≠ 0)) ∧
      (getTransformStyles (some t) z d).clipPath =
        (getTransformStyles
          (some { t with
                  x := none
                  y := none
                  scale := none
                  rotation := none
                  opacity := none }) z' d').clipPath) ∧
    (∀ (z : ℤ) (d : Bool), (getTransformStyles none z d).clipPath = none) ∧
    (getTransformStyles (some { scale := some 2, cropLeft := some 50 }) 1
        false).clipPath =
      some { top := 0, right := 0, bottom := 0, left := 50 } := by
  refine ⟨?_, ?_, ?_⟩
  · intro t z z' d d'
    constructor
    · rw [clipPath_eq]
      by_cases h : jsOrZero t.cropTop ≠ 0 ∨ jsOrZero t.cropBottom ≠ 0 ∨
          jsOrZero t.cropLeft ≠ 0 ∨ jsOrZero t.cropRight ≠ 0
      · rw [if_pos h]
        exact iff_of_true (by simp) h
      · rw [if_neg h]
        exact iff_of_false (by simp) h
    · rfl
  · intro z d
    simp [getTransformStyles, jsOrZero, truthy]
  · decide

/-- Witness for C7 at the concrete input of the claim: with
`scale:2, cropLeft:50` the crop inset is 50% from the left and does not
incorporate the scale factor. -/
theorem C7_crop_independence_witness :
    (getTransformStyles (some { scale := some 2, cropLeft := some 50 }) 1
        false).clipPath =
      some { top := 0, right := 0, bottom := 0, left := 50 } :=
  C7_crop_independence.2.2

/-- C8: the transform resolver is total (a Lean function over all input
shapes, including an absent transform) and never fails; the output
`zIndex` is the input ordinal, the cursor hint is "grabbing" exactly when
dragging, and the output opacity is the input opacity, defaulting to 1
when the opacity field or the whole transform is absent. -/
theorem C8_resolver_totality (tOpt : Option ClipTransform) (z : ℤ)
    (d : Bool) :
    (getTransformStyles tOpt z d).zIndex = z ∧
    ((getTransformStyles tOpt z d).cursor = some "grabbing" ↔ d = true) ∧
    (∀ t q, tOpt = some t → t.opacity = some q →
      (getTransformStyles tOpt z d).opacity = q) ∧
    (∀ t, tOpt = some t → t.opacity = none →
      (getTransformStyles tOpt z d).opacity = 1) ∧
    (tOpt = none → (getTransformStyles tOpt z d).opacity = 1) := by
  refine ⟨rfl, ?_, ?_, ?_, ?_⟩
  · cases d <;> simp [getTransformStyles]
  · intro t q ht hq
    subst ht
    show t.opacity.getD 1 = q
    rw [hq]
    rfl
  · intro t ht hq
    subst ht
    show t.opacity.getD 1 = 1
    rw [hq]
    rfl
  · intro ht
    subst ht
    rfl

/-- Witness for C8 at concrete inputs: a present opacity of 1/2 passes
through, an absent opacity field defaults to 1, and an absent transform
defaults to 1. -/
theorem C8_resolver_totality_witness :
    (getTransformStyles (some { opacity := some (1 / 2) }) 4 true).opacity
      = 1 / 2 ∧
    (getTransformStyles (some {}) 4 true).opacity = 1 ∧
    (getTransformStyles none 0 false).opacity = 1 :=
  ⟨(C8_resolver_totality (some { opacity := some (1 / 2) }) 4 true).2.2.1
      _ _ rfl rfl,
   (C8_resolver_totality (some {}) 4 true).2.2.2.1 _ rfl rfl,
   (C8_resolver_totality none 0 false).2.2.2.2 rfl⟩

/-- Counterexample to C5 as stated: a primary-button pointer-down on the
overlay layer whose id is the empty string does start a session
(`draggingLayer` is set), but the id is falsy in JavaScript, so the
global listeners are never registered and the subsequent pointer-move
emits no position-update request at all, not exactly one. -/
theorem C5_drag_move_counterexample :
    layerE.trackId ≠ "V1" ∧
    (step initialDragState
        (PointerEvent.down 0 0 0 layerE)).1.draggingLayer = some layerE.id ∧
    (step (step initialDragState (PointerEvent.down 0 0 0 layerE)).1
        (PointerEvent.move 20 15)).2 = [] := by
  decide

/-- C5 amended: during an active drag session started with a
primary-button pointer-down on an overlay layer with a non-empty id at
client coordinates `(cx0, cy0)`, every pointer-move to `(cx, cy)`
produces exactly one position-update request `onLayerMove(layer.id,
layerOrigin.x + (cx - cx0), layerOrigin.y + (cy - cy0))`, the layer
origin being the layer's transform position at gesture start with absent
fields defaulting to 0 (an empty layer id is falsy at line 159, so no
listener is registered and no request is emitted). -/
theorem C5_drag_move_formula (layer : ClipLayer) (s : DragState)
    (cx0 cy0 cx cy : ℚ) (h : layer.trackId ≠ "V1") (hid : layer.id ≠ "") :
    (step (step s (PointerEvent.down 0 cx0 cy0 layer)).1
        (PointerEvent.move cx cy)).2 =
      [Request.move layer.id
        (jsOrZero (layer.transform.bind ClipTransform.x) + (cx - cx0))
        (jsOrZero (layer.transform.bind ClipTransform.y) + (cy - cy0))] := by
  have hb : (layer.trackId == "V1") = false := beq_eq_false_iff_ne.mpr h
  simp [step, handleLayerMouseDown, hb, handleMouseMove, listenersActive,
    truthyStr, hid]

/-- Witness for C5 at a concrete input: a drag of layer B starting at
(0,0) and moving to (20,15) emits exactly `onLayerMove(B, 20, 15)`. -/
theorem C5_drag_move_formula_witness :
    (step (step initialDragState (PointerEvent.down 0 0 0 layerB)).1
        (PointerEvent.move 20 15)).2 = [Request.move "B" 20 15] := by
  have h := C5_drag_move_formula layerB initialDragState 0 0 20 15
    (by decide) (by decide)
  simpa [layerB, jsOrZero, truthy] using h

theorem runState_down_origin :
    ∀ (events : List PointerEvent) (s : DragState) (layerId : String),
      (runState s events).draggingLayer = some layerId →
      s.draggingLayer = some layerId ∨
      ∃ (cx cy : ℚ) (layer : ClipLayer),
        PointerEvent.down 0 cx cy layer ∈ events ∧ layer.id = layerId ∧
        layer.trackId ≠ "V1" := by
  intro events
  induction events with
  | nil => exact fun s layerId h => Or.inl h
  | cons e es ih =>
    intro s layerId h
    rw [runState] at h
    rcases ih (step s e).1 layerId h with h1 | h2
    · cases e with
      | down b cx cy layer =>
        by_cases hv : (layer.trackId == "V1") = true
        · left
          simpa [step, handleLayerMouseDown, hv] using h1
        · by_cases hb : b ≠ 0
          · left
            simpa [step, handleLayerMouseDown, hv, hb] using h1
          · have hb0 : b = 0 := not_not.mp hb
            right
            have hstep : (step s (PointerEvent.down b cx cy layer)).1.draggingLayer
                = some layer.id := by
              simp [step, handleLayerMouseDown, hv, hb]
            have hid : layer.id = layerId := by
              rw [hstep] at h1
              exact Option.some_inj.mp h1
            have hvne : layer.trackId ≠ "V1" := by
              have hvf : (layer.trackId == "V1") = false := by
                revert hv
                cases layer.trackId == "V1" <;> simp
              exact beq_eq_false_iff_ne.mp hvf
            subst hb0
            exact ⟨cx, cy, layer, List.mem_cons_self _ _, hid, hvne⟩
      | move cx cy =>
        left
        simpa [step] using h1
      | up =>
        left
        by_cases ha : listenersActive s = true
        · exfalso
          have : (step s PointerEvent.up).1 = initialDragState := by
            simp [step, handleMouseUp, ha]
          rw [this] at h1
          simp [initialDragState] at h1
        · simpa [step, handleMouseUp, ha] using h1
    · obtain ⟨cx, cy, layer, hmem, hrest⟩ := h2
      exact Or.inr ⟨cx, cy, layer, List.mem_cons_of_mem _ hmem, hrest⟩

/-- C6: a drag session is started only by a primary-button (0)
pointer-down on a layer whose `trackId` is not the base track V1, and
such a down emits exactly one `onLayerSelect`; a pointer-down on a
base-track layer (or with another button) changes nothing and emits
nothing; and any session reachable from the initial state references the
id of a non-base-track layer from a qualifying pointer-down. -/
theorem C6_drag_start_gating :
    (∀ (s : DragState) (b : ℕ) (cx cy : ℚ) (layer : ClipLayer),
      layer.trackId = "V1" →
      step s (PointerEvent.down b cx cy layer) = (s, [])) ∧
    (∀ (s : DragState) (b : ℕ) (cx cy : ℚ) (layer : ClipLayer),
      b ≠ 0 → step s (PointerEvent.down b cx cy layer) = (s, [])) ∧
    (∀ (s : DragState) (cx cy : ℚ) (layer : ClipLayer),
      layer.trackId ≠ "V1" →
      (step s (PointerEvent.down 0 cx cy layer)).1.draggingLayer
          = some layer.id ∧
      (step s (PointerEvent.down 0 cx cy layer)).2
          = [Request.select layer.id]) ∧
    (∀ (events : List PointerEvent) (layerId : String),
      (runState initialDragState events).draggingLayer = some layerId →
      ∃ (cx cy : ℚ) (layer : ClipLayer),
        PointerEvent.down 0 cx cy layer ∈ events ∧ layer.id = layerId ∧
        layer.trackId ≠ "V1") := by
  refine ⟨?_, ?_, ?_, ?_⟩
  · intro s b cx cy layer hv
    simp [step, handleLayerMouseDown, hv]
  · intro s b cx cy layer hb
    by_cases hv : (layer.trackId == "V1") = true
    · simp [step, handleLayerMouseDown, hv]
    · simp [step, handleLayerMouseDown, hv, hb]
  · intro s cx cy layer hv
    have hb : (layer.trackId == "V1") = false := beq_eq_false_iff_ne.mpr hv
    exact ⟨by simp [step, handleLayerMouseDown, hb],
      by simp [step, handleLayerMouseDown, hb]⟩
  · intro events layerId h
    rcases runState_down_origin events initialDragState layerId h with h1 | h2
    · exact absurd h1 (by simp [initialDragState])
    · exact h2

/-- Witness for C6 at concrete inputs: a primary-button down on the
base-track layer A is a no-op, and after a down on overlay layer B the
session provably originates from a qualifying down on B. -/
theorem C6_drag_start_gating_witness :
    (step initialDragState (PointerEvent.down 0 1 2 layerA)
      = (initialDragState, [])) ∧
    (∃ (cx cy : ℚ) (layer : ClipLayer),
      PointerEvent.down 0 cx cy layer ∈ [PointerEvent.down 0 3 4 layerB] ∧
      layer.id = "B" ∧ layer.trackId ≠ "V1") :=
  ⟨C6_drag_start_gating.1 initialDragState 0 1 2 layerA rfl,
   C6_drag_start_gating.2.2.2 [PointerEvent.down 0 3 4 layerB] "B"
     (by decide)⟩

theorem runState_inv :
    ∀ (events : List PointerEvent) (s : DragState),
      s.draggingLayer.isSome = s.dragStart.isSome →
      (runState s events).draggingLayer.isSome
        = (runState s events).dragStart.isSome := by
  intro events
  induction events with
  | nil => exact fun s h => h
  | cons e es ih =>
    intro s h
    rw [runState]
    apply ih
    cases e with
    | down b cx cy layer =>
      by_cases hv : (layer.trackId == "V1") = true
      · simpa [step, handleLayerMouseDown, hv] using h
      · by_cases hb : b ≠ 0
        · simpa [step, handleLayerMouseDown, hv, hb] using h
        · simp [step, handleLayerMouseDown, hv, hb]
    | move cx cy => simpa [step] using h
    | up =>
      by_cases ha : listenersActive s = true
      · simp [step, handleMouseUp, ha, initialDragState]
      · simpa [step, handleMouseUp, ha] using h

theorem step_up_clears (s : DragState)
    (h : s.draggingLayer.isSome = s.dragStart.isSome)
    (h2 : s.draggingLayer ≠ some "") :
    step s PointerEvent.up = (initialDragState, []) := by
  obtain ⟨dl, ds⟩ := s
  cases dl with
  | none =>
    cases ds with
    | none =>
      simp [step, handleMouseUp, listenersActive, truthyStr, initialDragState]
    | some d => simp at h
  | some lid =>
    cases ds with
    | none => simp at h
    | some d =>
      have hlid : lid ≠ "" := by
        intro he
        exact h2 (by rw [he])
      simp [step, handleMouseUp, listenersActive, truthyStr, initialDragState,
        hlid]

theorem step_up_inactive (s : DragState) :
    listenersActive (step s PointerEvent.up).1 = false := by
  by_cases ha : listenersActive s = true
  · have h : step s PointerEvent.up = (initialDragState, []) := by
      simp [step, handleMouseUp, ha]
    rw [h]
    rfl
  · have ha' : listenersActive s = false := by
      revert ha
      cases listenersActive s <;> simp
    have h : step s PointerEvent.up = (s, []) := by
      simp [step, handleMouseUp, ha']
    rw [h]
    exact ha'

theorem runRequests_append :
    ∀ (t u : List PointerEvent) (s : DragState),
      runRequests s (t ++ u)
        = runRequests s t ++ runRequests (runState s t) u := by
  intro t
  induction t with
  | nil => intro u s; simp [runRequests, runState]
  | cons e es ih =>
    intro u s
    rw [List.cons_append, runRequests, runRequests, runState,
      ih u (step s e).1, List.append_assoc]

theorem inactive_noop :
    ∀ events : List PointerEvent,
      (∀ e ∈ events, isDown e = false) →
      ∀ s : DragState, listenersActive s = false →
      runState s events = s ∧ runRequests s events = [] := by
  intro events
  induction events with
  | nil => exact fun _ _ _ => ⟨rfl, rfl⟩
  | cons e es ih =>
    intro h s hs
    have he : isDown e = false := h e (List.mem_cons_self _ _)
    have hes : ∀ e' ∈ es, isDown e' = false :=
      fun e' he' => h e' (List.mem_cons_of_mem _ he')
    have hstep : step s e = (s, []) := by
      cases e with
      | down b cx cy layer => simp [isDown] at he
      | move cx cy => simp [step, hs]
      | up => simp [step, handleMouseUp, hs]
    refine ⟨?_, ?_⟩
    · rw [runState, hstep]
      exact (ih hes s hs).1
    · rw [runRequests, hstep]
      simpa using (ih hes s hs).2

/-- Counterexample to C9 as stated: a session started on the overlay
layer whose id is the empty string is reachable by a qualifying
pointer-down, but its falsy id means the global listeners were never
registered, so a pointer-up does not end it: the state is unchanged and
`dragStart` remains set, contradicting "any pointer-up ends the active
drag session and clears all session state". -/
theorem C9_pointer_up_counterexample :
    (step initialDragState
        (PointerEvent.down 0 0 0 layerE)).1.draggingLayer = some "" ∧
    listenersActive
      (step initialDragState (PointerEvent.down 0 0 0 layerE)).1 = false ∧
    (step (step initialDragState (PointerEvent.down 0 0 0 layerE)).1
        PointerEvent.up).1
      = (step initialDragState (PointerEvent.down 0 0 0 layerE)).1 ∧
    (step (step initialDragState (PointerEvent.down 0 0 0 layerE)).1
        PointerEvent.up).1.dragStart ≠ none := by
  decide

/-- C9 amended: a pointer-up ends the drag session and clears all session
state whenever the session's layer id is non-empty, which is exactly when
the global listeners are registered (a session on an empty-id layer is
falsy at line 159, never registers them, and a pointer-up leaves its
state in place); the listeners are registered only while a session exists
— for reachable states, exactly while a session with a non-empty layer id
exists — never in the initial state; and after any pointer-up no request
is emitted until a new pointer-down occurs. -/
theorem C9_pointer_up_teardown :
    (∀ events : List PointerEvent,
      (runState initialDragState events).draggingLayer ≠ some "" →
      step (runState initialDragState events) PointerEvent.up
        = (initialDragState, [])) ∧
    listenersActive initialDragState = false ∧
    (∀ s : DragState, listenersActive s = true →
      s.draggingLayer.isSome = true) ∧
    (∀ events : List PointerEvent,
      listenersActive (runState initialDragState events) = true ↔
        ∃ lid, (runState initialDragState events).draggingLayer = some lid ∧
          lid ≠ "") ∧
    (∀ t u : List PointerEvent, (∀ e ∈ u, isDown e = false) →
      runRequests initialDragState (t ++ PointerEvent.up :: u)
        = runRequests initialDragState (t ++ [PointerEvent.up])) := by
  have hinv : ∀ events : List PointerEvent,
      (runState initialDragState events).draggingLayer.isSome
        = (runState initialDragState events).dragStart.isSome :=
    fun events => runState_inv events initialDragState rfl
  refine ⟨?_, rfl, ?_, ?_, ?_⟩
  · exact fun events hne => step_up_clears _ (hinv events) hne
  · intro s hs
    obtain ⟨dl, ds⟩ := s
    cases dl <;> simp_all [listenersActive, truthyStr]
  · intro events
    constructor
    · intro hact
      cases hdl : (runState initialDragState events).draggingLayer with
      | none =>
        rw [listenersActive, hdl] at hact
        simp [truthyStr] at hact
      | some lid =>
        refine ⟨lid, rfl, ?_⟩
        rw [listenersActive, hdl] at hact
        simpa [truthyStr] using (Bool.and_eq_true _ _).mp hact |>.1
    · rintro ⟨lid, hdl, hlid⟩
      have hds : (runState initialDragState events).dragStart.isSome = true := by
        rw [← hinv events, hdl]
        rfl
      rw [listenersActive, hdl, hds]
      simp [truthyStr, hlid]
  · intro t u hu
    have h1 : listenersActive
        (step (runState initialDragState t) PointerEvent.up).1 = false :=
      step_up_inactive _
    have h2 := (inactive_noop u hu _ h1).2
    rw [runRequests_append t (PointerEvent.up :: u) initialDragState,
      runRequests_append t [PointerEvent.up] initialDragState]
    congr 1

/-- Witness for the amended C9 at concrete inputs: after a drag of layer
B (non-empty id), a pointer-up resets the controller, and appending a
pointer-move after the pointer-up emits no further request. -/
theorem C9_pointer_up_teardown_witness :
    step (runState initialDragState
        [PointerEvent.down 0 0 0 layerB, PointerEvent.move 4 4])
      PointerEvent.up = (initialDragState, []) ∧
    runRequests initialDragState
        [PointerEvent.down 0 0 0 layerB, PointerEvent.up,
         PointerEvent.move 9 9]
      = runRequests initialDragState
        [PointerEvent.down 0 0 0 layerB, PointerEvent.up] :=
  ⟨C9_pointer_up_teardown.1
      [PointerEvent.down 0 0 0 layerB, PointerEvent.move 4 4] (by decide),
   C9_pointer_up_teardown.2.2.2.2 [PointerEvent.down 0 0 0 layerB]
      [PointerEvent.move 9 9] (by decide)⟩

/-- Counterexample to C10 as stated: with two video layers on track V1,
the base layer is the first (`layerA`), yet the second (`layerA2`) — a
video layer that is not the base layer — is rendered unmuted, so more
than one layer can produce audio. -/
theorem C10_counterexample :
    baseVideoLayer [layerA, layerA2] = some layerA ∧
    layerA2 ≠ layerA ∧
    layerA2.type = MediaType.video ∧
    (layerA2, false) ∈ renderedVideos [layerA, layerA2] := by
  decide

theorem filterMap_muted_count :
    ∀ L : List ClipLayer,
      ((L.filterMap fun l =>
          if l.type = MediaType.video then some (l, mutedAttr l)
          else none).filter
        fun p => !p.2).length = (L.filter isBaseVideo).length := by
  intro L
  induction L with
  | nil => rfl
  | cons l L ih =>
    by_cases hv : l.type = MediaType.video
    · rw [List.filterMap_cons_some (by rw [if_pos hv])]
      by_cases hb : isBaseVideo l = true
      · rw [List.filter_cons_of_pos (by simp [mutedAttr, hb]),
          List.filter_cons_of_pos (by simp [hb])]
        simp [ih]
      · have hb' : isBaseVideo l = false := by
          revert hb
          cases isBaseVideo l <;> simp
        rw [List.filter_cons_of_neg (by simp [mutedAttr, hb']),
          List.filter_cons_of_neg (by simp [hb'])]
        exact ih
    · have hb' : isBaseVideo l = false := by
        simp [isBaseVideo, beq_eq_false_iff_ne.mpr hv]
      rw [List.filterMap_cons_none (by rw [if_neg hv]),
        List.filter_cons_of_neg (by simp [hb'])]
      exact ih

/-- C10 amended: a rendered video layer is unmuted if and only if its own
`trackId` is V1 and its kind is video (the per-layer check, not identity
with the selected base layer), and the number of unmuted rendered video
elements equals the number of layers passing that check — so at most one
layer can produce audio exactly when at most one such layer is present. -/
theorem C10_amended_muting (layers : List ClipLayer) :
    (∀ (l : ClipLayer) (m : Bool), (l, m) ∈ renderedVideos layers →
      (m = false ↔ (l.trackId = "V1" ∧ l.type = MediaType.video))) ∧
    ((renderedVideos layers).filter fun p => !p.2).length
      = (layers.filter isBaseVideo).length := by
  constructor
  · intro l m hm
    unfold renderedVideos at hm
    obtain ⟨a, _, hfa⟩ := List.mem_filterMap.mp hm
    by_cases hv : a.type = MediaType.video
    · rw [if_pos hv] at hfa
      have hpair := Option.some_inj.mp hfa
      obtain rfl : a = l := congrArg Prod.fst hpair
      obtain rfl : mutedAttr a = m := congrArg Prod.snd hpair
      simp [mutedAttr, isBaseVideo]
    · rw [if_neg hv] at hfa
      cases hfa
  · unfold renderedVideos
    rw [filterMap_muted_count (sortedLayers layers)]
    exact List.Perm.length_eq
      (List.Perm.filter isBaseVideo (List.perm_insertionSort trackR layers))

/-- Witness for the amended C10 at a concrete input: the sole V1 video
layer is rendered unmuted. -/
theorem C10_amended_muting_witness :
    (false = false ↔ (layerA.trackId = "V1" ∧ layerA.type = MediaType.video)) :=
  (C10_amended_muting [layerA]).1 layerA false (by decide)

end HyperEdit
